import Mathlib

/-!
Shallow embedding of the metric-extraction core of the mechtherm analytics
repository (TGA thermal analysis in `TGA/tga_plot_table.py` and tensile
analysis in `tensile/plot_table.py`).  Numeric values are modelled as
rationals; the sqrt-based cross-trial statistics are modelled over the reals.
-/

namespace MechTherm

/-- First index of a list satisfying a boolean predicate, mirroring
`np.where(cond)[0][0]` (with `none` when no index qualifies). -/
def npWhereFirst {α : Type} (p : α → Bool) : List α → Option Nat
  | [] => none
  | x :: xs => if p x then some 0 else (npWhereFirst p xs).map (· + 1)

/-- Embedding of `_calculate_derivative(temperature, weight_percent)`:
the result has `W`'s length; interior entries are central differences guarded
by `dt > 0`; after the loop the two endpoints are set by guarded one-sided
differences when the length exceeds 1; all other entries stay at the
`np.zeros_like` initial value. -/
def calculate_derivative (T W : List ℚ) : List ℚ :=
  let n := W.length
  (List.range n).map (fun i =>
    if i = 0 then
      if 1 < n then
        (if 0 < T.getD 1 0 - T.getD 0 0 then
          (W.getD 1 0 - W.getD 0 0) / (T.getD 1 0 - T.getD 0 0)
        else 0)
      else 0
    else if i = n - 1 then
      (if 0 < T.getD (n-1) 0 - T.getD (n-2) 0 then
        (W.getD (n-1) 0 - W.getD (n-2) 0) / (T.getD (n-1) 0 - T.getD (n-2) 0)
      else 0)
    else
      (if 0 < T.getD (i+1) 0 - T.getD (i-1) 0 then
        (W.getD (i+1) 0 - W.getD (i-1) 0) / (T.getD (i+1) 0 - T.getD (i-1) 0)
      else 0))

/-- np.argmin over a list: index of the first occurrence of the minimum;
`np.argmin` keeps the earliest index because it updates only on a strict
decrease. (Degenerate on `[]`, where numpy raises.) -/
def npArgmin : List ℚ → Nat
  | [] => 0
  | [_] => 0
  | x :: y :: ys =>
    if x ≤ (y :: ys).getD (npArgmin (y :: ys)) 0 then 0 else npArgmin (y :: ys) + 1

/-- Structure mirroring the `results` dict of `_analyze_thermal_events`,
with `none` standing for `np.nan`. -/
structure ThermalEvents where
  T5 : Option ℚ
  T50 : Option ℚ
  Tmax : Option ℚ
  Residue_600C : Option ℚ
  deriving DecidableEq, Repr

/-- Temperature at the first index where the weight percent drops to the
threshold `c`, shared shape of the T5 and T50 blocks: `np.where(W ≤ c)[0]`,
then that first index into `temperature` (an out-of-range index raises and
the except-arm yields NaN). -/
def threshold_temp (c : ℚ) (T W : List ℚ) : Option ℚ :=
  match npWhereFirst (fun w => decide (w ≤ c)) W with
  | some i => if i < T.length then some (T.getD i 0) else none
  | none => none

/-- T5 block: threshold `95.0`. -/
def t5_calc (T W : List ℚ) : Option ℚ := threshold_temp 95 T W

/-- T50 block: threshold `50.0`. -/
def t50_calc (T W : List ℚ) : Option ℚ := threshold_temp 50 T W

/-- The decomposition-window mask `(temperature >= 200) & (temperature <= 600)`
applied to a (temperature, derivative) pair. -/
def decomp_mask (p : ℚ × ℚ) : Bool := decide (200 ≤ p.1) && decide (p.1 ≤ 600)

/-- Tmax block: restrict to `200 ≤ T ≤ 600`, take `np.argmin` of the masked
derivative, and return the masked temperature at that position. -/
def tmax_calc (T D : List ℚ) : Option ℚ :=
  let pairs := (T.zip D).filter decomp_mask
  if pairs = [] then none
  else some ((pairs.map Prod.fst).getD (npArgmin (pairs.map Prod.snd)) 0)

/-- Residue block: if `temperature.max() ≥ 600`, the weight percent at the
first index with `T ≥ 600`; otherwise (or whenever the try-arm raises) the
last weight-percent value, with NaN for an empty weight array. -/
def residue_calc (T W : List ℚ) : Option ℚ :=
  let lastW : Option ℚ :=
    if 0 < W.length then some (W.getD (W.length - 1) 0) else none
  match T with
  | [] => lastW
  | t :: ts =>
    if 600 ≤ ts.foldl max t then
      match npWhereFirst (fun x => decide (600 ≤ x)) (t :: ts) with
      | some i => if i < W.length then some (W.getD i 0) else lastW
      | none => lastW
    else lastW

/-- Embedding of `_analyze_thermal_events(temperature, weight_percent,
deriv_weight)`: the four independent scans assembled into one record. -/
def analyze_thermal_events (T W D : List ℚ) : ThermalEvents :=
  { T5 := t5_calc T W
    T50 := t50_calc T W
    Tmax := tmax_calc T D
    Residue_600C := residue_calc T W }

/-- Embedding of `np.max` / `.max()` over a list (raises on empty, hence `Option`). -/
def npMax : List ℚ → Option ℚ
  | [] => none
  | x :: xs => some (xs.foldl max x)

/-- Embedding of `(weight / initial_weight) * 100` from `_load_single_tga_file`, with
`initial_weight = weight[0]`. -/
def weight_percent (weight : List ℚ) : List ℚ :=
  weight.map (fun w => w / weight.getD 0 0 * 100)

/-- Slope of `scipy.stats.linregress` on a list of (x, y) points:
`Σ(x-x̄)(y-ȳ) / Σ(x-x̄)²`. -/
def linregressSlope (pts : List (ℚ × ℚ)) : ℚ :=
  let n : ℚ := pts.length
  let xbar := (pts.map Prod.fst).sum / n
  let ybar := (pts.map Prod.snd).sum / n
  (pts.map (fun p => (p.1 - xbar) * (p.2 - ybar))).sum
    / (pts.map (fun p => (p.1 - xbar) ^ 2)).sum

/-- Squared correlation coefficient `r_value ** 2` of `scipy.stats.linregress`:
`(Σ(x-x̄)(y-ȳ))² / (Σ(x-x̄)² · Σ(y-ȳ)²)`. -/
def linregressR2 (pts : List (ℚ × ℚ)) : ℚ :=
  let n : ℚ := pts.length
  let xbar := (pts.map Prod.fst).sum / n
  let ybar := (pts.map Prod.snd).sum / n
  ((pts.map (fun p => (p.1 - xbar) * (p.2 - ybar))).sum) ^ 2
    / ((pts.map (fun p => (p.1 - xbar) ^ 2)).sum
        * (pts.map (fun p => (p.2 - ybar) ^ 2)).sum)

/-- Embedding of `np.trapezoid(y, x)`: the trapezoid-rule integral of `y` against `x` over
consecutive samples in list order. -/
def trapz : List ℚ → List ℚ → ℚ
  | y1 :: y2 :: ys, x1 :: x2 :: xs => (x2 - x1) * (y1 + y2) / 2 + trapz (y2 :: ys) (x2 :: xs)
  | _, _ => 0

/-- The default linear-region mask
`(data['strain'] >= 0.001) & (data['strain'] <= 0.005)` on a
(strain, stress) pair. -/
def strain_window_mask (p : ℚ × ℚ) : Bool :=
  decide (1/1000 ≤ p.1) && decide (p.1 ≤ 5/1000)

/-- The per-trial record built by `_calculate_properties`. -/
structure MechanicalProperties where
  Youngs_Modulus_MPa : ℚ
  R_squared : ℚ
  UTS_MPa : ℚ
  Strain_at_Break_percent : ℚ
  Max_Load_N : ℚ
  Max_Displacement_mm : ℚ
  Toughness_MJ_per_m3 : ℚ
  deriving DecidableEq, Repr

/-- Embedding of `_calculate_properties(data)` with the default strain
window: windowed linregress when at least 5 samples fall in the window,
whole-trial linregress when the trial still has at least 5 samples, and
zeroes otherwise; plus the scalar maxima, last-strain and trapezoid fields. -/
def calculate_properties (strain stress load crosshead : List ℚ) :
    MechanicalProperties :=
  let pts := strain.zip stress
  let linear_data := pts.filter strain_window_mask
  let fit : ℚ × ℚ :=
    if 5 ≤ linear_data.length then (linregressSlope linear_data, linregressR2 linear_data)
    else if 5 ≤ strain.length then (linregressSlope pts, linregressR2 pts)
    else (0, 0)
  { Youngs_Modulus_MPa := fit.1
    R_squared := fit.2
    UTS_MPa := (npMax stress).getD 0
    Strain_at_Break_percent := strain.getD (strain.length - 1) 0 * 100
    Max_Load_N := (npMax load).getD 0
    Max_Displacement_mm := (npMax crosshead).getD 0
    Toughness_MJ_per_m3 := trapz stress strain }

/-- Embedding of `np.mean(values)` over the reals. -/
noncomputable def npMean (values : List ℝ) : ℝ := values.sum / values.length

/-- Embedding of `np.std(values, ddof=1)`: square root of the sum of squared deviations
from the mean divided by `n - 1`. -/
noncomputable def npStdSample (values : List ℝ) : ℝ :=
  Real.sqrt ((values.map (fun x => (x - npMean values) ^ 2)).sum
    / (values.length - 1))

/-- The `_mean` field of `calculate_statistics`. -/
noncomputable def stat_mean (values : List ℝ) : ℝ := npMean values

/-- The `_std` field of `calculate_statistics`:
`np.std(values, ddof=1) if len(values) > 1 else 0.0`. -/
noncomputable def stat_std (values : List ℝ) : ℝ :=
  if 1 < values.length then npStdSample values else 0

open Classical in
/-- The `_cv` field of `calculate_statistics`:
`np.std(values, ddof=1) / np.mean(values) * 100` when `len(values) > 1`
and the mean is non-zero, else `0.0`. -/
noncomputable def stat_cv (values : List ℝ) : ℝ :=
  if 1 < values.length ∧ npMean values ≠ 0 then
    npStdSample values / npMean values * 100
  else 0

lemma getD_map_range (f : Nat → ℚ) {n i : Nat} (h : i < n) :
    ((List.range n).map f).getD i 0 = f i := by
  simp [List.getD_eq_getElem?_getD, List.getElem?_map, List.getElem?_range, h]

lemma length_calculate_derivative (T W : List ℚ) :
    (calculate_derivative T W).length = W.length := by
  simp [calculate_derivative]

lemma npWhereFirst_eq_some {α : Type} (p : α → Bool) (d : α) :
    ∀ (l : List α) (i : Nat), npWhereFirst p l = some i →
      i < l.length ∧ p (l.getD i d) = true ∧ ∀ j < i, p (l.getD j d) = false
  | [], i => by simp [npWhereFirst]
  | x :: xs, i => by
    by_cases hx : p x
    · intro h
      simp [npWhereFirst, hx] at h
      subst h
      exact ⟨Nat.succ_pos _, by simpa using hx, fun j hj => absurd hj (Nat.not_lt_zero j)⟩
    · intro h
      simp [npWhereFirst, hx] at h
      obtain ⟨i', hi', rfl⟩ := h
      obtain ⟨h1, h2, h3⟩ := npWhereFirst_eq_some p d xs i' hi'
      refine ⟨by simpa using Nat.succ_lt_succ h1, by simpa using h2, ?_⟩
      intro j hj
      cases j with
      | zero => simpa using hx
      | succ j' => simpa using h3 j' (Nat.lt_of_succ_lt_succ hj)

lemma npWhereFirst_eq_none {α : Type} (p : α → Bool) (d : α) :
    ∀ (l : List α), npWhereFirst p l = none →
      ∀ j < l.length, p (l.getD j d) = false
  | [] => by simp
  | x :: xs => by
    by_cases hx : p x
    · intro h; simp [npWhereFirst, hx] at h
    · intro h j hj
      simp [npWhereFirst, hx] at h
      cases j with
      | zero => simpa using hx
      | succ j' =>
        simpa using npWhereFirst_eq_none p d xs h j' (by simpa using Nat.lt_of_succ_lt_succ hj)

lemma npWhereFirst_isSome {α : Type} (p : α → Bool) (d : α) (l : List α)
    (i : Nat) (hi : i < l.length) (hp : p (l.getD i d) = true) :
    ∃ k, npWhereFirst p l = some k := by
  cases h : npWhereFirst p l with
  | some k => exact ⟨k, rfl⟩
  | none =>
    have hf := npWhereFirst_eq_none p d l h i hi
    rw [hf] at hp
    exact absurd hp (by simp)

lemma npArgmin_spec : ∀ (l : List ℚ), l ≠ [] →
    npArgmin l < l.length ∧
    (∀ j < l.length, l.getD (npArgmin l) 0 ≤ l.getD j 0) ∧
    (∀ j < npArgmin l, l.getD j 0 > l.getD (npArgmin l) 0)
  | [], h => absurd rfl h
  | [x], _ => by simp [npArgmin]
  | x :: y :: ys, _ => by
    obtain ⟨ih1, ih2, ih3⟩ := npArgmin_spec (y :: ys) (by simp)
    by_cases hx : x ≤ (y :: ys).getD (npArgmin (y :: ys)) 0
    · have harg : npArgmin (x :: y :: ys) = 0 := by rw [npArgmin, if_pos hx]
      rw [harg]
      refine ⟨by simp, ?_, by omega⟩
      intro j hj
      cases j with
      | zero => simp
      | succ j' =>
        simp only [List.getD_cons_zero, List.getD_cons_succ]
        exact le_trans hx (ih2 j' (by simpa using Nat.lt_of_succ_lt_succ hj))
    · have harg : npArgmin (x :: y :: ys) = npArgmin (y :: ys) + 1 := by
        rw [npArgmin, if_neg hx]
      rw [harg]
      push_neg at hx
      refine ⟨by simpa using Nat.succ_lt_succ ih1, ?_, ?_⟩
      · intro j hj
        cases j with
        | zero => simpa using le_of_lt hx
        | succ j' =>
          simpa using ih2 j' (by simpa using Nat.lt_of_succ_lt_succ hj)
      · intro j hj
        cases j with
        | zero => simpa using hx
        | succ j' => simpa using ih3 j' (Nat.lt_of_succ_lt_succ hj)

lemma getD_eq_getElem_of_lt {α : Type} (l : List α) (d : α) {i : Nat}
    (h : i < l.length) : l.getD i d = l[i] := by
  rw [List.getD_eq_getElem?_getD, List.getElem?_eq_getElem h]
  rfl

lemma getD_map_of_lt {α β : Type} (f : α → β) (l : List α) {i : Nat}
    (h : i < l.length) (d : β) (d' : α) :
    (l.map f).getD i d = f (l.getD i d') := by
  rw [getD_eq_getElem_of_lt _ _ (by simpa using h), getD_eq_getElem_of_lt _ _ h,
    List.getElem_map]

lemma getD_zip_of_lt (T D : List ℚ) {i : Nat} (h1 : i < T.length)
    (h2 : i < D.length) :
    (T.zip D).getD i (0, 0) = (T.getD i 0, D.getD i 0) := by
  have hz : i < (T.zip D).length := by
    simpa [List.length_zip] using ⟨h1, h2⟩
  rw [getD_eq_getElem_of_lt _ _ hz, List.getElem_zip,
    getD_eq_getElem_of_lt _ _ h1, getD_eq_getElem_of_lt _ _ h2]

lemma threshold_temp_defined (c : ℚ) (T W : List ℚ) (hlen : T.length = W.length)
    {i : Nat} (hi : i < W.length) (hp : W.getD i 0 ≤ c) :
    ∃ k, k < W.length ∧ W.getD k 0 ≤ c ∧ (∀ j < k, ¬ W.getD j 0 ≤ c) ∧
      threshold_temp c T W = some (T.getD k 0) := by
  obtain ⟨k, hk⟩ :=
    npWhereFirst_isSome (fun w => decide (w ≤ c)) 0 W i hi (by simpa using hp)
  obtain ⟨h1, h2, h3⟩ := npWhereFirst_eq_some (fun w => decide (w ≤ c)) 0 W k hk
  refine ⟨k, h1, by simpa using h2, ?_, ?_⟩
  · intro j hj
    simpa using h3 j hj
  · rw [threshold_temp, hk]
    exact if_pos (hlen ▸ h1)

lemma threshold_temp_undefined (c : ℚ) (T W : List ℚ)
    (hnone : ∀ i < W.length, ¬ W.getD i 0 ≤ c) :
    threshold_temp c T W = none := by
  cases hk : npWhereFirst (fun w => decide (w ≤ c)) W with
  | none => rw [threshold_temp, hk]
  | some k =>
    obtain ⟨h1, h2, _⟩ := npWhereFirst_eq_some (fun w => decide (w ≤ c)) 0 W k hk
    exact absurd (by simpa using h2) (hnone k h1)

lemma find?_eq_some_of_first {α : Type} (p : α → Bool) (d : α) :
    ∀ (l : List α) (i : Nat), i < l.length → p (l.getD i d) = true →
      (∀ j < i, p (l.getD j d) = false) → l.find? p = some (l.getD i d)
  | [], i => by simp
  | x :: xs, i => by
    cases i with
    | zero =>
      intro _ hp _
      simp only [List.getD_cons_zero] at hp ⊢
      simp [List.find?_cons, hp]
    | succ n =>
      intro hi hp hb
      have hx : p x = false := by simpa using hb 0 (Nat.succ_pos n)
      simp only [List.getD_cons_succ] at hp ⊢
      rw [List.find?_cons, hx]
      exact find?_eq_some_of_first p d xs n (by simpa using hi) hp
        (fun j hj => by simpa using hb (j + 1) (Nat.succ_lt_succ hj))

/-- Every element of the masked (temperature, derivative) pair list comes
from an aligned index inside the decomposition window. -/
lemma mem_decomp_pairs (T D : List ℚ) {p : ℚ × ℚ}
    (hp : p ∈ (T.zip D).filter decomp_mask) :
    ∃ j, j < T.length ∧ j < D.length ∧ p = (T.getD j 0, D.getD j 0) ∧
      200 ≤ T.getD j 0 ∧ T.getD j 0 ≤ 600 := by
  rw [List.mem_filter] at hp
  obtain ⟨hmem, hmask⟩ := hp
  obtain ⟨j, hj, hval⟩ := List.mem_iff_getElem.mp hmem
  have hjT : j < T.length := by
    have := hj; simp [List.length_zip] at this; omega
  have hjD : j < D.length := by
    have := hj; simp [List.length_zip] at this; omega
  have hpair : p = (T.getD j 0, D.getD j 0) := by
    rw [← hval, List.getElem_zip, getD_eq_getElem_of_lt _ _ hjT,
      getD_eq_getElem_of_lt _ _ hjD]
  have hc : 200 ≤ T.getD j 0 ∧ T.getD j 0 ≤ 600 := by
    have hm := hmask
    rw [hpair] at hm
    simpa [decomp_mask] using hm
  exact ⟨j, hjT, hjD, hpair, hc.1, hc.2⟩

/-- The window pair at an in-window aligned index is in the masked list. -/
lemma decomp_pair_mem (T D : List ℚ) {j : Nat} (hjT : j < T.length)
    (hjD : j < D.length) (hwin : 200 ≤ T.getD j 0 ∧ T.getD j 0 ≤ 600) :
    (T.getD j 0, D.getD j 0) ∈ (T.zip D).filter decomp_mask := by
  rw [List.mem_filter]
  constructor
  · rw [List.mem_iff_getElem]
    refine ⟨j, by simpa [List.length_zip] using ⟨hjT, hjD⟩, ?_⟩
    rw [List.getElem_zip, getD_eq_getElem_of_lt _ _ hjT, getD_eq_getElem_of_lt _ _ hjD]
  · simpa [decomp_mask] using hwin

/-- Core Tmax lemma: if `i₀` is an in-window index whose derivative is
minimal over the window and strictly below every earlier in-window
derivative, `tmax_calc` returns the temperature at `i₀`. -/
lemma tmax_calc_eq_of_first_min (T D : List ℚ) (hlen : T.length = D.length)
    {i₀ : Nat} (hi : i₀ < T.length)
    (hwin : 200 ≤ T.getD i₀ 0 ∧ T.getD i₀ 0 ≤ 600)
    (hmin : ∀ j < T.length, 200 ≤ T.getD j 0 → T.getD j 0 ≤ 600 →
      D.getD i₀ 0 ≤ D.getD j 0)
    (hfirst : ∀ j < i₀, 200 ≤ T.getD j 0 → T.getD j 0 ≤ 600 →
      D.getD i₀ 0 < D.getD j 0) :
    tmax_calc T D = some (T.getD i₀ 0) := by
  have hiD : i₀ < D.length := hlen ▸ hi
  set pairs := (T.zip D).filter decomp_mask with hpairs
  have hmem : (T.getD i₀ 0, D.getD i₀ 0) ∈ pairs :=
    decomp_pair_mem T D hi hiD hwin
  have hne : pairs ≠ [] := List.ne_nil_of_mem hmem
  set snds := pairs.map Prod.snd with hsnds
  have hsne : snds ≠ [] := by
    simpa [hsnds] using List.ne_nil_of_mem (List.mem_map_of_mem Prod.snd hmem)
  obtain ⟨hk, hle, hgt⟩ := npArgmin_spec snds hsne
  set k := npArgmin snds with hkdef
  have hkp : k < pairs.length := by simpa [hsnds] using hk
  -- the argmin value equals D[i₀]
  have hsk : snds.getD k 0 = (pairs.getD k (0, 0)).2 :=
    getD_map_of_lt Prod.snd pairs hkp 0 (0, 0)
  have hkmem : pairs.getD k (0, 0) ∈ pairs := by
    rw [getD_eq_getElem_of_lt _ _ hkp]
    exact List.getElem_mem hkp
  obtain ⟨jk, hjkT, hjkD, hjkval, hjkwin⟩ := mem_decomp_pairs T D hkmem
  have hval_le : D.getD i₀ 0 ≤ snds.getD k 0 := by
    rw [hsk, hjkval]
    exact hmin jk hjkT hjkwin.1 hjkwin.2
  have hle_val : snds.getD k 0 ≤ D.getD i₀ 0 := by
    obtain ⟨m, hm, hmval⟩ := List.mem_iff_getElem.mp
      (List.mem_map_of_mem Prod.snd hmem)
    have : snds.getD m 0 = D.getD i₀ 0 := by
      rw [getD_eq_getElem_of_lt _ _ (by simpa [hsnds] using hm)]
      exact hmval
    calc snds.getD k 0 ≤ snds.getD m 0 := hle m (by simpa [hsnds] using hm)
      _ = D.getD i₀ 0 := this
  have hveq : snds.getD k 0 = D.getD i₀ 0 := le_antisymm hle_val hval_le
  -- the first pair whose derivative equals D[i₀], sought along the raw zip
  have hfind_zip : (T.zip D).find?
      (fun p => decomp_mask p && decide (p.2 = D.getD i₀ 0)) =
      some ((T.zip D).getD i₀ (0, 0)) := by
    apply find?_eq_some_of_first _ (0, 0)
    · simpa [List.length_zip] using ⟨hi, hiD⟩
    · rw [getD_zip_of_lt T D hi hiD]
      simpa [decomp_mask] using hwin
    · intro j hj
      have hjT : j < T.length := lt_trans hj hi
      have hjD : j < D.length := hlen ▸ hjT
      rw [getD_zip_of_lt T D hjT hjD]
      show (decomp_mask (T.getD j 0, D.getD j 0) &&
        decide (D.getD j 0 = D.getD i₀ 0)) = false
      by_cases hw : 200 ≤ T.getD j 0 ∧ T.getD j 0 ≤ 600
      · have hne' : D.getD j 0 ≠ D.getD i₀ 0 := ne_of_gt (hfirst j hj hw.1 hw.2)
        rw [decide_eq_false hne', Bool.and_false]
      · have hmf : decomp_mask (T.getD j 0, D.getD j 0) = false := by
          rcases not_and_or.mp hw with h | h
          · show (decide (200 ≤ T.getD j 0) && decide (T.getD j 0 ≤ 600)) = false
            rw [decide_eq_false h, Bool.false_and]
          · show (decide (200 ≤ T.getD j 0) && decide (T.getD j 0 ≤ 600)) = false
            rw [decide_eq_false h, Bool.and_false]
        rw [hmf, Bool.false_and]
  have hfind_pairs : pairs.find? (fun p => decide (p.2 = D.getD i₀ 0)) =
      some ((T.zip D).getD i₀ (0, 0)) := by
    rw [hpairs, List.find?_filter]
    have hfun : (fun a : ℚ × ℚ =>
        decide (decomp_mask a = true ∧ decide (a.2 = D.getD i₀ 0) = true)) =
        (fun p : ℚ × ℚ => decomp_mask p && decide (p.2 = D.getD i₀ 0)) := by
      funext a
      cases h1 : decomp_mask a <;> cases h2 : decide (a.2 = D.getD i₀ 0) <;>
        simp [h1, h2]
    rw [hfun]
    exact hfind_zip
  -- but that first pair is also the pair at the argmin position
  have hfind_pairs' : pairs.find? (fun p => decide (p.2 = D.getD i₀ 0)) =
      some (pairs.getD k (0, 0)) := by
    apply find?_eq_some_of_first _ (0, 0) pairs k hkp
    · rw [← hsk, hveq]; simp
    · intro j hj
      have hjp : j < pairs.length := lt_trans hj hkp
      have : (pairs.getD j (0, 0)).2 = snds.getD j 0 :=
        (getD_map_of_lt Prod.snd pairs hjp 0 (0, 0)).symm
      rw [this]
      have := hgt j hj
      rw [hveq] at this
      simpa using ne_of_gt this
  have hpair_eq : pairs.getD k (0, 0) = (T.zip D).getD i₀ (0, 0) := by
    have := hfind_pairs'.symm.trans hfind_pairs
    exact Option.some.inj this
  rw [tmax_calc]
  simp only [← hpairs, if_neg hne]
  rw [getD_map_of_lt Prod.fst pairs hkp 0 (0, 0), hpair_eq,
    getD_zip_of_lt T D hi hiD]

/-- If some index is in the decomposition window, `tmax_calc` returns the
temperature at an in-window index of window-minimal derivative. -/
lemma tmax_calc_defined (T D : List ℚ) (hlen : T.length = D.length)
    {i : Nat} (hi : i < T.length)
    (hwin : 200 ≤ T.getD i 0 ∧ T.getD i 0 ≤ 600) :
    ∃ k, k < T.length ∧ 200 ≤ T.getD k 0 ∧ T.getD k 0 ≤ 600 ∧
      (∀ j < T.length, 200 ≤ T.getD j 0 → T.getD j 0 ≤ 600 →
        D.getD k 0 ≤ D.getD j 0) ∧
      tmax_calc T D = some (T.getD k 0) := by
  have hiD : i < D.length := hlen ▸ hi
  set pairs := (T.zip D).filter decomp_mask with hpairs
  have hmem : (T.getD i 0, D.getD i 0) ∈ pairs := decomp_pair_mem T D hi hiD hwin
  have hne : pairs ≠ [] := List.ne_nil_of_mem hmem
  set snds := pairs.map Prod.snd with hsnds
  have hsne : snds ≠ [] := by
    simpa [hsnds] using List.ne_nil_of_mem (List.mem_map_of_mem Prod.snd hmem)
  obtain ⟨hk, hle, _⟩ := npArgmin_spec snds hsne
  set k := npArgmin snds with hkdef
  have hkp : k < pairs.length := by simpa [hsnds] using hk
  have hsk : snds.getD k 0 = (pairs.getD k (0, 0)).2 :=
    getD_map_of_lt Prod.snd pairs hkp 0 (0, 0)
  have hkmem : pairs.getD k (0, 0) ∈ pairs := by
    rw [getD_eq_getElem_of_lt _ _ hkp]
    exact List.getElem_mem hkp
  obtain ⟨jk, hjkT, hjkD, hjkval, hjkwin⟩ := mem_decomp_pairs T D hkmem
  refine ⟨jk, hjkT, hjkwin.1, hjkwin.2, ?_, ?_⟩
  · intro j hjT h1 h2
    have hjD : j < D.length := hlen ▸ hjT
    have hmemj : (T.getD j 0, D.getD j 0) ∈ pairs :=
      decomp_pair_mem T D hjT hjD ⟨h1, h2⟩
    obtain ⟨m, hm, hmval⟩ := List.mem_iff_getElem.mp
      (List.mem_map_of_mem Prod.snd hmemj)
    have hsm : snds.getD m 0 = D.getD j 0 := by
      rw [getD_eq_getElem_of_lt _ _ (by simpa [hsnds] using hm)]
      exact hmval
    have hjk_eq : D.getD jk 0 = snds.getD k 0 := by rw [hsk, hjkval]
    rw [hjk_eq, ← hsm]
    exact hle m (by simpa [hsnds] using hm)
  · rw [tmax_calc]
    simp only [← hpairs, if_neg hne]
    rw [getD_map_of_lt Prod.fst pairs hkp 0 (0, 0), hjkval]

lemma le_foldl_max_init : ∀ (xs : List ℚ) (x : ℚ), x ≤ xs.foldl max x
  | [], x => le_refl x
  | y :: ys, x => le_trans (le_max_left x y) (le_foldl_max_init ys (max x y))

lemma le_foldl_max_of_mem : ∀ (xs : List ℚ) (x a : ℚ), a ∈ xs → a ≤ xs.foldl max x
  | y :: ys, x, a, h => by
    rcases List.mem_cons.mp h with rfl | h'
    · exact le_trans (le_max_right x a) (le_foldl_max_init ys (max x a))
    · exact le_foldl_max_of_mem ys (max x y) a h'

lemma foldl_max_mem : ∀ (xs : List ℚ) (x : ℚ), xs.foldl max x ∈ x :: xs
  | [], x => by simp
  | y :: ys, x => by
    have h := foldl_max_mem ys (max x y)
    simp only [List.foldl_cons]
    rcases List.mem_cons.mp h with h' | h'
    · rw [h']
      rcases max_choice x y with hm | hm <;> rw [hm]
      · exact List.mem_cons_self _ _
      · exact List.mem_cons_of_mem _ (List.mem_cons_self _ _)
    · exact List.mem_cons_of_mem _ (List.mem_cons_of_mem _ h')

/-- Trapezoid integral of an exactly linear relation `y = k·x` telescopes to
`k · (x_last² - x_first²) / 2`. -/
lemma trapz_linear (k : ℚ) : ∀ (x : ℚ) (xs : List ℚ),
    trapz ((x :: xs).map (fun s => k * s)) (x :: xs) =
      k * (((x :: xs).getD (xs.length) 0) ^ 2 - x ^ 2) / 2
  | x, [] => by simp [trapz]
  | x, y :: ys => by
    have ih := trapz_linear k y ys
    simp only [List.map_cons] at ih ⊢
    rw [trapz]
    rw [ih]
    simp only [List.length_cons, List.getD_cons_succ]
    ring

lemma perm_npMean {l l' : List ℝ} (h : l.Perm l') : npMean l = npMean l' := by
  rw [npMean, npMean, h.sum_eq, h.length_eq]

lemma perm_npStdSample {l l' : List ℝ} (h : l.Perm l') :
    npStdSample l = npStdSample l' := by
  rw [npStdSample, npStdSample, perm_npMean h, (h.map _).sum_eq, h.length_eq]

/-- If no temperature lies in the decomposition window, `tmax_calc` is NaN. -/
lemma tmax_calc_none (T D : List ℚ)
    (h : ∀ i < T.length, ¬ (200 ≤ T.getD i 0 ∧ T.getD i 0 ≤ 600)) :
    tmax_calc T D = none := by
  have hnil : (T.zip D).filter decomp_mask = [] := by
    rw [List.filter_eq_nil_iff]
    intro p hp
    obtain ⟨j, hj, hval⟩ := List.mem_iff_getElem.mp hp
    have hjT : j < T.length := by
      have := hj; simp [List.length_zip] at this; omega
    have hjD : j < D.length := by
      have := hj; simp [List.length_zip] at this; omega
    have hp1 : p.1 = T.getD j 0 := by
      rw [← hval, List.getElem_zip, getD_eq_getElem_of_lt _ _ hjT]
    intro hmask
    simp only [decomp_mask, Bool.and_eq_true, decide_eq_true_eq, hp1] at hmask
    exact h j hjT hmask
  rw [tmax_calc]
  simp [hnil]

/-- If some temperature reaches 600, the residue is the weight percent at
the first such index. -/
lemma residue_calc_at_600 (T W : List ℚ) (hlen : T.length = W.length)
    {i : Nat} (hi : i < T.length) (h6 : 600 ≤ T.getD i 0) :
    ∃ k, k < T.length ∧ 600 ≤ T.getD k 0 ∧ (∀ j < k, ¬ 600 ≤ T.getD j 0) ∧
      residue_calc T W = some (W.getD k 0) := by
  cases T with
  | nil => exact absurd hi (by simp)
  | cons t ts =>
    have hmax : 600 ≤ ts.foldl max t := by
      have hmem : (t :: ts).getD i 0 ∈ t :: ts := by
        rw [getD_eq_getElem_of_lt _ _ hi]
        exact List.getElem_mem hi
      rcases List.mem_cons.mp hmem with h | h
      · rw [h] at h6
        exact le_trans h6 (le_foldl_max_init ts t)
      · exact le_trans h6 (le_foldl_max_of_mem ts t _ h)
    obtain ⟨k, hk⟩ := npWhereFirst_isSome (fun x => decide (600 ≤ x)) 0
      (t :: ts) i hi (by simpa using h6)
    obtain ⟨h1, h2, h3⟩ := npWhereFirst_eq_some (fun x => decide (600 ≤ x)) 0
      (t :: ts) k hk
    refine ⟨k, h1, by simpa using h2, fun j hj => by simpa using h3 j hj, ?_⟩
    have hkW : k < W.length := hlen ▸ h1
    simp only [residue_calc, if_pos hmax, hk, if_pos hkW]

/-- If the temperature sweep never reaches 600, the residue falls back to the
last weight-percent value. -/
lemma residue_calc_below_600 (T W : List ℚ) (hne : T ≠ [])
    (hlt : ∀ i < T.length, T.getD i 0 < 600) (hW : 0 < W.length) :
    residue_calc T W = some (W.getD (W.length - 1) 0) := by
  cases T with
  | nil => exact absurd rfl hne
  | cons t ts =>
    have hmax : ¬ 600 ≤ ts.foldl max t := by
      obtain ⟨m, hm, hval⟩ := List.mem_iff_getElem.mp (foldl_max_mem ts t)
      have heq : ts.foldl max t = (t :: ts).getD m 0 := by
        rw [getD_eq_getElem_of_lt _ _ hm, hval]
      rw [heq]
      exact not_le.mpr (hlt m hm)
    simp only [residue_calc, if_neg hmax, if_pos hW]

end MechTherm

open MechTherm

/-- C1: the derivative computation returns a same-length sequence whose
interior entries are guarded central differences, whose endpoints are guarded
one-sided differences, and which is all-zero when the input has at most one
sample. -/
theorem C1_derivative_spec (T W : List ℚ) (hlen : T.length = W.length) :
    (calculate_derivative T W).length = W.length ∧
    (∀ i, 1 ≤ i → i + 1 < W.length →
      (calculate_derivative T W).getD i 0 =
        if T.getD (i-1) 0 < T.getD (i+1) 0 then
          (W.getD (i+1) 0 - W.getD (i-1) 0) / (T.getD (i+1) 0 - T.getD (i-1) 0)
        else 0) ∧
    (1 < W.length →
      (calculate_derivative T W).getD 0 0 =
        if T.getD 0 0 < T.getD 1 0 then
          (W.getD 1 0 - W.getD 0 0) / (T.getD 1 0 - T.getD 0 0)
        else 0) ∧
    (1 < W.length →
      (calculate_derivative T W).getD (W.length - 1) 0 =
        if T.getD (W.length - 2) 0 < T.getD (W.length - 1) 0 then
          (W.getD (W.length - 1) 0 - W.getD (W.length - 2) 0)
            / (T.getD (W.length - 1) 0 - T.getD (W.length - 2) 0)
        else 0) ∧
    (W.length ≤ 1 → calculate_derivative T W = List.replicate W.length 0) := by
  refine ⟨length_calculate_derivative T W, ?_, ?_, ?_, ?_⟩
  · intro i h1 h2
    have hi : i < W.length := Nat.lt_of_succ_lt h2
    have h0 : i ≠ 0 := by omega
    have hlast : i ≠ W.length - 1 := by omega
    rw [calculate_derivative, getD_map_range _ hi, if_neg h0, if_neg hlast]
    simp only [sub_pos]
  · intro h
    rw [calculate_derivative, getD_map_range _ (by omega), if_pos rfl, if_pos h]
    simp only [sub_pos]
  · intro h
    have h0 : W.length - 1 ≠ 0 := by omega
    rw [calculate_derivative, getD_map_range _ (by omega), if_neg h0, if_pos rfl]
    simp only [sub_pos]
  · intro h
    rcases Nat.le_one_iff_eq_zero_or_eq_one.mp h with h0 | h1
    · simp [calculate_derivative, h0]
    · simp [calculate_derivative, h1, List.range_succ]

/-- Witness for C1 at `T = [1,2,3]`, `W = [10,8,4]`: the interior derivative
entry is the guarded central difference. -/
theorem C1_derivative_spec_witness :
    ([(1:ℚ), 2, 3].length = [(10:ℚ), 8, 4].length) ∧
    (calculate_derivative [(1:ℚ), 2, 3] [(10:ℚ), 8, 4]).getD 1 0 =
      (if ([(1:ℚ), 2, 3].getD 0 0) < ([(1:ℚ), 2, 3].getD 2 0) then
        (([(10:ℚ), 8, 4].getD 2 0) - ([(10:ℚ), 8, 4].getD 0 0))
          / (([(1:ℚ), 2, 3].getD 2 0) - ([(1:ℚ), 2, 3].getD 0 0))
      else 0) :=
  ⟨rfl, (C1_derivative_spec [1, 2, 3] [10, 8, 4] rfl).2.1 1 (by norm_num) (by norm_num)⟩

/-- C3: T5 is the temperature at the first index with `W ≤ 95` (NaN when no
index qualifies), T50 likewise with threshold 50, and Tmax is the temperature
at an index of window-minimal derivative among `200 ≤ T ≤ 600` (NaN when the
window is empty). -/
theorem C3_thermal_event_extraction (T W D : List ℚ)
    (hTW : T.length = W.length) (hTD : T.length = D.length) :
    ((∃ i, i < W.length ∧ W.getD i 0 ≤ 95) →
      ∃ k, k < W.length ∧ W.getD k 0 ≤ 95 ∧ (∀ j < k, ¬ W.getD j 0 ≤ 95) ∧
        (analyze_thermal_events T W D).T5 = some (T.getD k 0)) ∧
    ((∀ i < W.length, ¬ W.getD i 0 ≤ 95) →
      (analyze_thermal_events T W D).T5 = none) ∧
    ((∃ i, i < W.length ∧ W.getD i 0 ≤ 50) →
      ∃ k, k < W.length ∧ W.getD k 0 ≤ 50 ∧ (∀ j < k, ¬ W.getD j 0 ≤ 50) ∧
        (analyze_thermal_events T W D).T50 = some (T.getD k 0)) ∧
    ((∀ i < W.length, ¬ W.getD i 0 ≤ 50) →
      (analyze_thermal_events T W D).T50 = none) ∧
    ((∃ i, i < T.length ∧ 200 ≤ T.getD i 0 ∧ T.getD i 0 ≤ 600) →
      ∃ k, k < T.length ∧ 200 ≤ T.getD k 0 ∧ T.getD k 0 ≤ 600 ∧
        (∀ j < T.length, 200 ≤ T.getD j 0 → T.getD j 0 ≤ 600 →
          D.getD k 0 ≤ D.getD j 0) ∧
        (analyze_thermal_events T W D).Tmax = some (T.getD k 0)) ∧
    ((∀ i < T.length, ¬ (200 ≤ T.getD i 0 ∧ T.getD i 0 ≤ 600)) →
      (analyze_thermal_events T W D).Tmax = none) := by
  refine ⟨?_, ?_, ?_, ?_, ?_, ?_⟩
  · rintro ⟨i, hi, hp⟩
    exact threshold_temp_defined 95 T W hTW hi hp
  · intro hall
    exact threshold_temp_undefined 95 T W hall
  · rintro ⟨i, hi, hp⟩
    exact threshold_temp_defined 50 T W hTW hi hp
  · intro hall
    exact threshold_temp_undefined 50 T W hall
  · rintro ⟨i, hi, h1, h2⟩
    exact tmax_calc_defined T D hTD hi ⟨h1, h2⟩
  · intro hall
    exact tmax_calc_none T D hall

/-- Witness for C3 at `T = [250,300]`, `W = [96,40]`, `D = [-1,-2]`. -/
theorem C3_thermal_event_extraction_witness :
    (([(250:ℚ), 300].length = [(96:ℚ), 40].length) ∧
     ([(250:ℚ), 300].length = [(-1:ℚ), -2].length)) ∧
    (((∃ i, i < ([(96:ℚ), 40]).length ∧ ([(96:ℚ), 40]).getD i 0 ≤ 95) →
      ∃ k, k < ([(96:ℚ), 40]).length ∧ ([(96:ℚ), 40]).getD k 0 ≤ 95 ∧
        (∀ j < k, ¬ ([(96:ℚ), 40]).getD j 0 ≤ 95) ∧
        (analyze_thermal_events [250, 300] [96, 40] [-1, -2]).T5 =
          some (([(250:ℚ), 300]).getD k 0)) ∧
    ((∀ i < ([(96:ℚ), 40]).length, ¬ ([(96:ℚ), 40]).getD i 0 ≤ 95) →
      (analyze_thermal_events [250, 300] [96, 40] [-1, -2]).T5 = none) ∧
    ((∃ i, i < ([(96:ℚ), 40]).length ∧ ([(96:ℚ), 40]).getD i 0 ≤ 50) →
      ∃ k, k < ([(96:ℚ), 40]).length ∧ ([(96:ℚ), 40]).getD k 0 ≤ 50 ∧
        (∀ j < k, ¬ ([(96:ℚ), 40]).getD j 0 ≤ 50) ∧
        (analyze_thermal_events [250, 300] [96, 40] [-1, -2]).T50 =
          some (([(250:ℚ), 300]).getD k 0)) ∧
    ((∀ i < ([(96:ℚ), 40]).length, ¬ ([(96:ℚ), 40]).getD i 0 ≤ 50) →
      (analyze_thermal_events [250, 300] [96, 40] [-1, -2]).T50 = none) ∧
    ((∃ i, i < ([(250:ℚ), 300]).length ∧ 200 ≤ ([(250:ℚ), 300]).getD i 0 ∧
        ([(250:ℚ), 300]).getD i 0 ≤ 600) →
      ∃ k, k < ([(250:ℚ), 300]).length ∧ 200 ≤ ([(250:ℚ), 300]).getD k 0 ∧
        ([(250:ℚ), 300]).getD k 0 ≤ 600 ∧
        (∀ j < ([(250:ℚ), 300]).length, 200 ≤ ([(250:ℚ), 300]).getD j 0 →
          ([(250:ℚ), 300]).getD j 0 ≤ 600 →
          ([(-1:ℚ), -2]).getD k 0 ≤ ([(-1:ℚ), -2]).getD j 0) ∧
        (analyze_thermal_events [250, 300] [96, 40] [-1, -2]).Tmax =
          some (([(250:ℚ), 300]).getD k 0)) ∧
    ((∀ i < ([(250:ℚ), 300]).length,
        ¬ (200 ≤ ([(250:ℚ), 300]).getD i 0 ∧ ([(250:ℚ), 300]).getD i 0 ≤ 600)) →
      (analyze_thermal_events [250, 300] [96, 40] [-1, -2]).Tmax = none)) :=
  ⟨⟨rfl, rfl⟩, C3_thermal_event_extraction [250, 300] [96, 40] [-1, -2] rfl rfl⟩

/-- Counterexample for C4: on `T = [100,...,600]`, `W = [100,96,70,40,20,15]`
the first index with `W ≤ 95` is index 2 (since `W[1] = 96 > 95`), so T5 is
300, not 200 as the claim asserts. -/
theorem C4_counterexample :
    (analyze_thermal_events [100, 200, 300, 400, 500, 600]
        [100, 96, 70, 40, 20, 15]
        (calculate_derivative [100, 200, 300, 400, 500, 600]
          [100, 96, 70, 40, 20, 15])).T5 = some 300 ∧
    ¬ (analyze_thermal_events [100, 200, 300, 400, 500, 600]
        [100, 96, 70, 40, 20, 15]
        (calculate_derivative [100, 200, 300, 400, 500, 600]
          [100, 96, 70, 40, 20, 15])).T5 = some 200 := by
  constructor
  · rfl
  · intro h
    exact absurd (Option.some.inj h) (by norm_num)

/-- C4 amended: on the end-to-end input the analyzer returns T5 = 300 (first
index with `W ≤ 95` is index 2), T50 = 400 (index 3), Tmax = 300 (the
steepest in-window drop has derivative `(40-96)/(400-200) = -0.28` at index
2), and Residue_600C = 15. -/
theorem C4_amended_end_to_end :
    analyze_thermal_events [100, 200, 300, 400, 500, 600]
        [100, 96, 70, 40, 20, 15]
        (calculate_derivative [100, 200, 300, 400, 500, 600]
          [100, 96, 70, 40, 20, 15]) =
      { T5 := some 300, T50 := some 400, Tmax := some 300,
        Residue_600C := some 15 } := by
  have hD1 : (calculate_derivative [100, 200, 300, 400, 500, 600]
      [100, 96, 70, 40, 20, 15]).getD 1 0 = -3/20 := by
    rw [calculate_derivative, getD_map_range _ (by decide)]
    norm_num [List.getD]
  have hD2 : (calculate_derivative [100, 200, 300, 400, 500, 600]
      [100, 96, 70, 40, 20, 15]).getD 2 0 = -7/25 := by
    rw [calculate_derivative, getD_map_range _ (by decide)]
    norm_num [List.getD]
  have hD3 : (calculate_derivative [100, 200, 300, 400, 500, 600]
      [100, 96, 70, 40, 20, 15]).getD 3 0 = -1/4 := by
    rw [calculate_derivative, getD_map_range _ (by decide)]
    norm_num [List.getD]
  have hD4 : (calculate_derivative [100, 200, 300, 400, 500, 600]
      [100, 96, 70, 40, 20, 15]).getD 4 0 = -1/8 := by
    rw [calculate_derivative, getD_map_range _ (by decide)]
    norm_num [List.getD]
  have hD5 : (calculate_derivative [100, 200, 300, 400, 500, 600]
      [100, 96, 70, 40, 20, 15]).getD 5 0 = -1/20 := by
    rw [calculate_derivative, getD_map_range _ (by decide)]
    norm_num [List.getD]
  have hTmax : tmax_calc [100, 200, 300, 400, 500, 600]
      (calculate_derivative [100, 200, 300, 400, 500, 600]
        [100, 96, 70, 40, 20, 15]) = some 300 := by
    have h := tmax_calc_eq_of_first_min
      [100, 200, 300, 400, 500, 600]
      (calculate_derivative [100, 200, 300, 400, 500, 600]
        [100, 96, 70, 40, 20, 15])
      (by rw [length_calculate_derivative]; rfl)
      (show 2 < ([100, 200, 300, 400, 500, 600] : List ℚ).length by decide)
      (by constructor <;> norm_num [List.getD])
      ?_ ?_
    · simpa [List.getD] using h
    · intro j hj h1 h2
      have hj6 : j < 6 := hj
      interval_cases j
      · exact absurd h1 (by norm_num [List.getD])
      · rw [hD2, hD1]; norm_num
      · exact le_refl _
      · rw [hD2, hD3]; norm_num
      · rw [hD2, hD4]; norm_num
      · rw [hD2, hD5]; norm_num
    · intro j hj h1 h2
      have hj2 : j < 2 := hj
      interval_cases j
      · exact absurd h1 (by norm_num [List.getD])
      · rw [hD2, hD1]; norm_num
  have hrec : analyze_thermal_events [100, 200, 300, 400, 500, 600]
      [100, 96, 70, 40, 20, 15]
      (calculate_derivative [100, 200, 300, 400, 500, 600]
        [100, 96, 70, 40, 20, 15]) =
      { T5 := t5_calc [100, 200, 300, 400, 500, 600] [100, 96, 70, 40, 20, 15]
        T50 := t50_calc [100, 200, 300, 400, 500, 600] [100, 96, 70, 40, 20, 15]
        Tmax := tmax_calc [100, 200, 300, 400, 500, 600]
          (calculate_derivative [100, 200, 300, 400, 500, 600]
            [100, 96, 70, 40, 20, 15])
        Residue_600C := residue_calc [100, 200, 300, 400, 500, 600]
          [100, 96, 70, 40, 20, 15] } := rfl
  rw [hrec, hTmax]
  have h5 : t5_calc [100, 200, 300, 400, 500, 600]
      [100, 96, 70, 40, 20, 15] = some 300 := rfl
  have h50 : t50_calc [100, 200, 300, 400, 500, 600]
      [100, 96, 70, 40, 20, 15] = some 400 := rfl
  have hres : residue_calc [100, 200, 300, 400, 500, 600]
      [100, 96, 70, 40, 20, 15] = some 15 := rfl
  rw [h5, h50, hres]

lemma calculate_properties_fit (strain stress load crosshead : List ℚ) :
    ((calculate_properties strain stress load crosshead).Youngs_Modulus_MPa,
     (calculate_properties strain stress load crosshead).R_squared) =
    (if 5 ≤ ((strain.zip stress).filter strain_window_mask).length then
      (linregressSlope ((strain.zip stress).filter strain_window_mask),
       linregressR2 ((strain.zip stress).filter strain_window_mask))
    else if 5 ≤ strain.length then
      (linregressSlope (strain.zip stress), linregressR2 (strain.zip stress))
    else (0, 0)) := rfl

/-- C2: with the default strain window, the modulus/R² come from the
windowed least-squares fit when at least 5 samples are in the window, from
the whole-trial fit when fewer are in the window but the trial has at least
5 samples, and are 0 when the trial has fewer than 5 samples; in particular
4 in-window samples out of 6 give the whole-trial slope. -/
theorem C2_modulus_fit (strain stress load crosshead : List ℚ)
    (h : strain.length = stress.length) :
    (5 ≤ ((strain.zip stress).filter strain_window_mask).length →
      (calculate_properties strain stress load crosshead).Youngs_Modulus_MPa =
        linregressSlope ((strain.zip stress).filter strain_window_mask) ∧
      (calculate_properties strain stress load crosshead).R_squared =
        linregressR2 ((strain.zip stress).filter strain_window_mask)) ∧
    (((strain.zip stress).filter strain_window_mask).length < 5 →
      5 ≤ strain.length →
      (calculate_properties strain stress load crosshead).Youngs_Modulus_MPa =
        linregressSlope (strain.zip stress) ∧
      (calculate_properties strain stress load crosshead).R_squared =
        linregressR2 (strain.zip stress)) ∧
    (strain.length < 5 →
      (calculate_properties strain stress load crosshead).Youngs_Modulus_MPa = 0 ∧
      (calculate_properties strain stress load crosshead).R_squared = 0) ∧
    (((strain.zip stress).filter strain_window_mask).length = 4 →
      strain.length = 6 →
      (calculate_properties strain stress load crosshead).Youngs_Modulus_MPa =
        linregressSlope (strain.zip stress)) := by
  have hfit := calculate_properties_fit strain stress load crosshead
  refine ⟨?_, ?_, ?_, ?_⟩
  · intro h5
    rw [if_pos h5] at hfit
    simpa [Prod.ext_iff] using hfit
  · intro hlt h5
    rw [if_neg (by omega), if_pos h5] at hfit
    simpa [Prod.ext_iff] using hfit
  · intro hlt
    have hwlt : ((strain.zip stress).filter strain_window_mask).length < 5 := by
      have h1 : ((strain.zip stress).filter strain_window_mask).length ≤
          (strain.zip stress).length := List.length_filter_le _ _
      have h2 : (strain.zip stress).length ≤ strain.length := by
        rw [List.length_zip]; omega
      omega
    rw [if_neg (by omega), if_neg (by omega)] at hfit
    simpa [Prod.ext_iff] using hfit
  · intro h4 h6
    rw [if_neg (by omega), if_pos (by omega)] at hfit
    have h' := hfit
    simp only [Prod.ext_iff] at h'
    exact h'.1

/-- Witness for C2 on a 6-sample trial with exactly 4 samples in the default
strain window, exercising the whole-trial fallback. -/
theorem C2_modulus_fit_witness :
    (([(2:ℚ)/1000, 3/1000, 4/1000, 5/1000, 1/100, 2/100]).length =
      ([(1:ℚ), 2, 3, 4, 5, 6]).length) ∧
    ((([(2:ℚ)/1000, 3/1000, 4/1000, 5/1000, 1/100, 2/100].zip
        [(1:ℚ), 2, 3, 4, 5, 6]).filter strain_window_mask).length = 4) ∧
    (calculate_properties [(2:ℚ)/1000, 3/1000, 4/1000, 5/1000, 1/100, 2/100]
        [(1:ℚ), 2, 3, 4, 5, 6] [] []).Youngs_Modulus_MPa =
      linregressSlope ([(2:ℚ)/1000, 3/1000, 4/1000, 5/1000, 1/100, 2/100].zip
        [(1:ℚ), 2, 3, 4, 5, 6]) := by
  have hwin : (([(2:ℚ)/1000, 3/1000, 4/1000, 5/1000, 1/100, 2/100].zip
      [(1:ℚ), 2, 3, 4, 5, 6]).filter strain_window_mask).length = 4 := by
    have h2 : strain_window_mask ((2:ℚ)/1000, 1) = true := by
      simp [strain_window_mask]; norm_num
    have h3 : strain_window_mask ((3:ℚ)/1000, 2) = true := by
      simp [strain_window_mask]; norm_num
    have h4 : strain_window_mask ((4:ℚ)/1000, 3) = true := by
      simp [strain_window_mask]; norm_num
    have h5 : strain_window_mask ((5:ℚ)/1000, 4) = true := by
      simp [strain_window_mask]; norm_num
    have h6 : strain_window_mask ((1:ℚ)/100, 5) = false := by
      simp [strain_window_mask]; norm_num
    have h7 : strain_window_mask ((2:ℚ)/100, 6) = false := by
      simp [strain_window_mask]; norm_num
    simp only [List.zip_cons_cons, List.zip_nil_right, List.filter_cons,
      List.filter_nil, h2, h3, h4, h5, h6, h7, if_true, if_false]
    rfl
  refine ⟨rfl, hwin, ?_⟩
  exact (C2_modulus_fit [(2:ℚ)/1000, 3/1000, 4/1000, 5/1000, 1/100, 2/100]
    [(1:ℚ), 2, 3, 4, 5, 6] [] [] rfl).2.2.2 hwin rfl

/-- C5: per-property statistics are permutation-invariant, the mean is the
arithmetic mean, the std is the n>1 sample standard deviation and 0 for a
single trial, and the cv is std/mean×100 for n>1 with non-zero mean and 0
for a single trial or a zero mean. -/
theorem C5_statistics {α : Type} (group group' : List α) (f : α → ℝ)
    (hne : group ≠ []) (hperm : group.Perm group') :
    (stat_mean (group'.map f) = stat_mean (group.map f) ∧
     stat_std (group'.map f) = stat_std (group.map f) ∧
     stat_cv (group'.map f) = stat_cv (group.map f)) ∧
    stat_mean (group.map f) = (group.map f).sum / (group.map f).length ∧
    (1 < group.length → stat_std (group.map f) = npStdSample (group.map f)) ∧
    (1 < group.length → npMean (group.map f) ≠ 0 →
      stat_cv (group.map f) =
        npStdSample (group.map f) / npMean (group.map f) * 100) ∧
    (group.length = 1 → stat_std (group.map f) = 0 ∧ stat_cv (group.map f) = 0) ∧
    (npMean (group.map f) = 0 → stat_cv (group.map f) = 0) := by
  have hm : (group.map f).Perm (group'.map f) := hperm.map f
  refine ⟨⟨?_, ?_, ?_⟩, rfl, ?_, ?_, ?_, ?_⟩
  · rw [stat_mean, stat_mean, perm_npMean hm]
  · rw [stat_std, stat_std, hm.length_eq, perm_npStdSample hm]
  · rw [stat_cv, stat_cv, hm.length_eq, perm_npMean hm, perm_npStdSample hm]
  · intro h1
    rw [stat_std, if_pos (by simpa using h1)]
  · intro h1 h0
    rw [stat_cv, if_pos ⟨by simpa using h1, h0⟩]
  · intro h1
    constructor
    · rw [stat_std, if_neg (by simp [h1])]
    · rw [stat_cv, if_neg (by simp [h1])]
  · intro h0
    rw [stat_cv, if_neg (by simp [h0])]

/-- Witness for C5 at a single-trial group with value 3: std and cv are 0. -/
theorem C5_statistics_witness :
    (([()] : List Unit) ≠ [] ∧ ([()] : List Unit).Perm [()]) ∧
    ((stat_mean ([()].map fun _ => (3:ℝ)) = stat_mean ([()].map fun _ => (3:ℝ)) ∧
      stat_std ([()].map fun _ => (3:ℝ)) = stat_std ([()].map fun _ => (3:ℝ)) ∧
      stat_cv ([()].map fun _ => (3:ℝ)) = stat_cv ([()].map fun _ => (3:ℝ))) ∧
    stat_mean ([()].map fun _ => (3:ℝ)) =
      ([()].map fun _ => (3:ℝ)).sum / ([()].map fun _ => (3:ℝ)).length ∧
    (1 < ([()] : List Unit).length →
      stat_std ([()].map fun _ => (3:ℝ)) = npStdSample ([()].map fun _ => (3:ℝ))) ∧
    (1 < ([()] : List Unit).length → npMean ([()].map fun _ => (3:ℝ)) ≠ 0 →
      stat_cv ([()].map fun _ => (3:ℝ)) =
        npStdSample ([()].map fun _ => (3:ℝ)) / npMean ([()].map fun _ => (3:ℝ)) * 100) ∧
    (([()] : List Unit).length = 1 →
      stat_std ([()].map fun _ => (3:ℝ)) = 0 ∧ stat_cv ([()].map fun _ => (3:ℝ)) = 0) ∧
    (npMean ([()].map fun _ => (3:ℝ)) = 0 → stat_cv ([()].map fun _ => (3:ℝ)) = 0)) :=
  ⟨⟨by simp, List.Perm.refl _⟩,
    C5_statistics [()] [()] (fun _ => (3:ℝ)) (by simp) (List.Perm.refl _)⟩

/-- Counterexample for C6 as stated: with the non-monotone temperature sweep
`T = [500, 100]` and non-increasing `W = [90, 40]`, both T5 and T50 are
defined but `T50 = 100 < 500 = T5`. -/
theorem C6_counterexample :
    (∀ j, j < ([(90:ℚ), 40]).length → ∀ i, i ≤ j →
      ([(90:ℚ), 40]).getD j 0 ≤ ([(90:ℚ), 40]).getD i 0) ∧
    (analyze_thermal_events [500, 100] [90, 40] [0, 0]).T5 = some 500 ∧
    (analyze_thermal_events [500, 100] [90, 40] [0, 0]).T50 = some 100 ∧
    ¬ (500 : ℚ) ≤ 100 := by
  refine ⟨?_, rfl, rfl, by norm_num⟩
  intro j hj i hi
  have hj2 : j < 2 := hj
  interval_cases j
  · interval_cases i
    · exact le_refl _
  · interval_cases i
    · show (40:ℚ) ≤ 90
      norm_num
    · exact le_refl _

/-- C6 amended: when additionally the temperature sequence is non-decreasing
(as in a heating ramp), a non-increasing weight sequence with both T5 and T50
defined satisfies `T5 ≤ T50`. -/
theorem C6_t5_t50_monotone (T W D : List ℚ) (hTW : T.length = W.length)
    (hWmono : ∀ j, j < W.length → ∀ i, i ≤ j → W.getD j 0 ≤ W.getD i 0)
    (hTmono : ∀ j, j < T.length → ∀ i, i ≤ j → T.getD i 0 ≤ T.getD j 0)
    (t5 t50 : ℚ)
    (h5 : (analyze_thermal_events T W D).T5 = some t5)
    (h50 : (analyze_thermal_events T W D).T50 = some t50) :
    t5 ≤ t50 := by
  have h5' : threshold_temp 95 T W = some t5 := h5
  have h50' : threshold_temp 50 T W = some t50 := h50
  cases hk5 : npWhereFirst (fun w => decide (w ≤ (95:ℚ))) W with
  | none =>
    simp only [threshold_temp, hk5] at h5'
    exact absurd h5' (by simp)
  | some k5 =>
    simp only [threshold_temp, hk5] at h5'
    by_cases hb5 : k5 < T.length
    · rw [if_pos hb5] at h5'
      cases hk50 : npWhereFirst (fun w => decide (w ≤ (50:ℚ))) W with
      | none =>
        simp only [threshold_temp, hk50] at h50'
        exact absurd h50' (by simp)
      | some k50 =>
        simp only [threshold_temp, hk50] at h50'
        by_cases hb50 : k50 < T.length
        · rw [if_pos hb50] at h50'
          obtain ⟨hk5len, hp5, hfirst5⟩ :=
            npWhereFirst_eq_some (fun w => decide (w ≤ (95:ℚ))) 0 W k5 hk5
          obtain ⟨hk50len, hp50, _⟩ :=
            npWhereFirst_eq_some (fun w => decide (w ≤ (50:ℚ))) 0 W k50 hk50
          have h95at50 : W.getD k50 0 ≤ 95 :=
            le_trans (by simpa using hp50) (by norm_num)
          have hle : k5 ≤ k50 := by
            by_contra hlt
            push_neg at hlt
            have := hfirst5 k50 hlt
            rw [decide_eq_true h95at50] at this
            exact absurd this (by simp)
          have := hTmono k50 hb50 k5 hle
          rw [← Option.some.inj h5', ← Option.some.inj h50']
          exact this
        · rw [if_neg hb50] at h50'
          exact absurd h50' (by simp)
    · rw [if_neg hb5] at h5'
      exact absurd h5' (by simp)

/-- Witness for C6 amended at `T = [100, 200]`, `W = [90, 40]`. -/
theorem C6_t5_t50_monotone_witness :
    (([(100:ℚ), 200]).length = ([(90:ℚ), 40]).length) ∧
    (∀ j, j < ([(90:ℚ), 40]).length → ∀ i, i ≤ j →
      ([(90:ℚ), 40]).getD j 0 ≤ ([(90:ℚ), 40]).getD i 0) ∧
    (∀ j, j < ([(100:ℚ), 200]).length → ∀ i, i ≤ j →
      ([(100:ℚ), 200]).getD i 0 ≤ ([(100:ℚ), 200]).getD j 0) ∧
    (analyze_thermal_events [100, 200] [90, 40] [0, 0]).T5 = some 100 ∧
    (analyze_thermal_events [100, 200] [90, 40] [0, 0]).T50 = some 200 ∧
    (100 : ℚ) ≤ 200 := by
  have hW : ∀ j, j < ([(90:ℚ), 40]).length → ∀ i, i ≤ j →
      ([(90:ℚ), 40]).getD j 0 ≤ ([(90:ℚ), 40]).getD i 0 := by
    intro j hj i hi
    have hj2 : j < 2 := hj
    interval_cases j
    · interval_cases i
      · exact le_refl _
    · interval_cases i
      · show (40:ℚ) ≤ 90
        norm_num
      · exact le_refl _
  have hT : ∀ j, j < ([(100:ℚ), 200]).length → ∀ i, i ≤ j →
      ([(100:ℚ), 200]).getD i 0 ≤ ([(100:ℚ), 200]).getD j 0 := by
    intro j hj i hi
    have hj2 : j < 2 := hj
    interval_cases j
    · interval_cases i
      · exact le_refl _
    · interval_cases i
      · show (100:ℚ) ≤ 200
        norm_num
      · exact le_refl _
  exact ⟨rfl, hW, hT, rfl, rfl,
    C6_t5_t50_monotone [100, 200] [90, 40] [0, 0] rfl hW hT 100 200 rfl rfl⟩

/-- C7: when some temperature reaches 600 the residue is the weight percent
at the first such index, and when the sweep never reaches 600 it is the last
weight-percent value. -/
theorem C7_residue_600 (T W D : List ℚ) (hne : T ≠ [])
    (hlen : T.length = W.length) :
    ((∃ i, i < T.length ∧ 600 ≤ T.getD i 0) →
      ∃ k, k < T.length ∧ 600 ≤ T.getD k 0 ∧ (∀ j < k, ¬ 600 ≤ T.getD j 0) ∧
        (analyze_thermal_events T W D).Residue_600C = some (W.getD k 0)) ∧
    ((∀ i < T.length, T.getD i 0 < 600) →
      (analyze_thermal_events T W D).Residue_600C =
        some (W.getD (W.length - 1) 0)) := by
  constructor
  · rintro ⟨i, hi, h6⟩
    exact residue_calc_at_600 T W hlen hi h6
  · intro hlt
    have hW : 0 < W.length := by
      rw [← hlen]
      exact List.length_pos.mpr hne
    exact residue_calc_below_600 T W hne hlt hW

/-- Witness for C7 at `T = [650]`, `W = [20]`: the sweep reaches 600 at
index 0 and the residue is 20. -/
theorem C7_residue_600_witness :
    (([(650:ℚ)] : List ℚ) ≠ [] ∧ ([(650:ℚ)]).length = ([(20:ℚ)]).length) ∧
    (((∃ i, i < ([(650:ℚ)]).length ∧ 600 ≤ ([(650:ℚ)]).getD i 0) →
      ∃ k, k < ([(650:ℚ)]).length ∧ 600 ≤ ([(650:ℚ)]).getD k 0 ∧
        (∀ j < k, ¬ 600 ≤ ([(650:ℚ)]).getD j 0) ∧
        (analyze_thermal_events [650] [20] [0]).Residue_600C =
          some (([(20:ℚ)]).getD k 0)) ∧
    ((∀ i < ([(650:ℚ)]).length, ([(650:ℚ)]).getD i 0 < 600) →
      (analyze_thermal_events [650] [20] [0]).Residue_600C =
        some (([(20:ℚ)]).getD (([(20:ℚ)]).length - 1) 0))) :=
  ⟨⟨by simp, rfl⟩, C7_residue_600 [650] [20] [0] (by simp) rfl⟩

/-- C8: the toughness field is the trapezoid-rule integral of stress against
strain, and for an exactly linear trial `stress = k·strain` rising from 0 to
`s_max` it equals `k · s_max² / 2` exactly. -/
theorem C8_toughness_trapezoid (strain stress load crosshead : List ℚ)
    (k smax : ℚ)
    (hlin : stress = strain.map (fun s => k * s))
    (hmono : List.Chain' (· < ·) strain)
    (hne : strain ≠ [])
    (hfirst : strain.getD 0 0 = 0)
    (hlast : strain.getD (strain.length - 1) 0 = smax) :
    (calculate_properties strain stress load crosshead).Toughness_MJ_per_m3 =
      trapz stress strain ∧
    (calculate_properties strain stress load crosshead).Toughness_MJ_per_m3 =
      k * smax ^ 2 / 2 := by
  refine ⟨rfl, ?_⟩
  cases strain with
  | nil => exact absurd rfl hne
  | cons x xs =>
    have hT : (calculate_properties (x :: xs) stress load
        crosshead).Toughness_MJ_per_m3 = trapz stress (x :: xs) := rfl
    rw [hT, hlin, trapz_linear k x xs]
    have hx0 : x = 0 := by simpa using hfirst
    have hl : (x :: xs).getD xs.length 0 = smax := by
      simpa using hlast
    rw [hl, hx0]
    ring

/-- Witness for C8 at `strain = [0, 1, 2]`, `k = 3`: toughness is the
trapezoid integral and equals `3 · 2² / 2`. -/
theorem C8_toughness_trapezoid_witness :
    (([(0:ℚ), 3, 6] = ([(0:ℚ), 1, 2]).map (fun s => 3 * s)) ∧
     List.Chain' (· < ·) ([(0:ℚ), 1, 2]) ∧
     ([(0:ℚ), 1, 2] : List ℚ) ≠ [] ∧
     ([(0:ℚ), 1, 2]).getD 0 0 = 0 ∧
     ([(0:ℚ), 1, 2]).getD (([(0:ℚ), 1, 2]).length - 1) 0 = 2) ∧
    ((calculate_properties [0, 1, 2] [0, 3, 6] [] []).Toughness_MJ_per_m3 =
      trapz [0, 3, 6] [0, 1, 2] ∧
     (calculate_properties [0, 1, 2] [0, 3, 6] [] []).Toughness_MJ_per_m3 =
      3 * 2 ^ 2 / 2) := by
  have hlin : ([(0:ℚ), 3, 6] = ([(0:ℚ), 1, 2]).map (fun s => 3 * s)) := by
    simp only [List.map_cons, List.map_nil, List.cons.injEq]
    norm_num
  have hmono : List.Chain' (· < ·) ([(0:ℚ), 1, 2]) := by
    simp only [List.chain'_cons, List.chain'_singleton, and_true]
    norm_num
  exact ⟨⟨hlin, hmono, by simp, rfl, rfl⟩,
    C8_toughness_trapezoid [0, 1, 2] [0, 3, 6] [] [] 3 2 hlin hmono
      (by simp) rfl rfl⟩

/-- C9: for a non-empty raw weight sequence with non-zero first element, the
derived weight-percent sequence starts at exactly 100. -/
theorem C9_weight_percent_initial (weight : List ℚ) (hne : weight ≠ [])
    (h0 : weight.getD 0 0 ≠ 0) :
    (weight_percent weight).getD 0 0 = 100 := by
  cases weight with
  | nil => exact absurd rfl hne
  | cons w ws =>
    have hw : w ≠ 0 := by simpa using h0
    show w / w * 100 = 100
    rw [div_self hw, one_mul]

/-- Witness for C9 at `weight = [2]`. -/
theorem C9_weight_percent_initial_witness :
    (([(2:ℚ)] : List ℚ) ≠ [] ∧ ([(2:ℚ)]).getD 0 0 ≠ 0) ∧
    (weight_percent [2]).getD 0 0 = 100 :=
  ⟨⟨by simp, by norm_num⟩,
    C9_weight_percent_initial [2] (by simp) (by norm_num)⟩

/-- C10: when several in-window indices attain the most negative derivative,
Tmax is the temperature at the earliest such index: an in-window index whose
derivative is window-minimal and strictly below every earlier in-window
derivative determines Tmax. -/
theorem C10_tmax_tie_break (T W D : List ℚ) (hlen : T.length = D.length)
    (i₀ : Nat) (hi : i₀ < T.length)
    (h1 : 200 ≤ T.getD i₀ 0) (h2 : T.getD i₀ 0 ≤ 600)
    (hmin : ∀ j < T.length, 200 ≤ T.getD j 0 → T.getD j 0 ≤ 600 →
      D.getD i₀ 0 ≤ D.getD j 0)
    (hfirst : ∀ j < i₀, 200 ≤ T.getD j 0 → T.getD j 0 ≤ 600 →
      D.getD i₀ 0 < D.getD j 0) :
    (analyze_thermal_events T W D).Tmax = some (T.getD i₀ 0) :=
  tmax_calc_eq_of_first_min T D hlen hi ⟨h1, h2⟩ hmin hfirst

/-- Witness for C10 at `T = [300, 400]`, `D = [1, 1]`: both in-window indices
tie at the minimal derivative and Tmax is the earlier one's temperature. -/
theorem C10_tmax_tie_break_witness :
    (([(300:ℚ), 400]).length = ([(1:ℚ), 1]).length ∧
     (0 : Nat) < ([(300:ℚ), 400]).length ∧
     200 ≤ ([(300:ℚ), 400]).getD 0 0 ∧ ([(300:ℚ), 400]).getD 0 0 ≤ 600 ∧
     (∀ j < ([(300:ℚ), 400]).length, 200 ≤ ([(300:ℚ), 400]).getD j 0 →
        ([(300:ℚ), 400]).getD j 0 ≤ 600 →
        ([(1:ℚ), 1]).getD 0 0 ≤ ([(1:ℚ), 1]).getD j 0) ∧
     (∀ j < 0, 200 ≤ ([(300:ℚ), 400]).getD j 0 →
        ([(300:ℚ), 400]).getD j 0 ≤ 600 →
        ([(1:ℚ), 1]).getD 0 0 < ([(1:ℚ), 1]).getD j 0)) ∧
    (analyze_thermal_events [300, 400] [0, 0] [1, 1]).Tmax = some 300 := by
  have hmin : ∀ j < ([(300:ℚ), 400]).length, 200 ≤ ([(300:ℚ), 400]).getD j 0 →
      ([(300:ℚ), 400]).getD j 0 ≤ 600 →
      ([(1:ℚ), 1]).getD 0 0 ≤ ([(1:ℚ), 1]).getD j 0 := by
    intro j hj _ _
    have hj2 : j < 2 := hj
    interval_cases j <;> exact le_refl _
  have hfirst : ∀ j < 0, 200 ≤ ([(300:ℚ), 400]).getD j 0 →
      ([(300:ℚ), 400]).getD j 0 ≤ 600 →
      ([(1:ℚ), 1]).getD 0 0 < ([(1:ℚ), 1]).getD j 0 := by
    intro j hj
    exact absurd hj (Nat.not_lt_zero j)
  refine ⟨⟨rfl, by norm_num, by norm_num [List.getD], by norm_num [List.getD],
    hmin, hfirst⟩, ?_⟩
  exact C10_tmax_tie_break [300, 400] [0, 0] [1, 1] rfl 0 (by norm_num)
    (by norm_num [List.getD]) (by norm_num [List.getD]) hmin hfirst
